import Mathlib

/-!
Verification of the recursive research agent of `travel-tailor-agent`.

The repository contains two near-identical copies of the agent:
  * `src/research_agent.py`            — embedded here with the suffix `V1`
  * `src/research/research_agent.py`   — embedded here with the suffix `V2`
Definitions without a suffix are shared by both copies (the code is identical).

Modelling conventions:
  * Python strings are Lean `String`s; the Python `str` methods used by the
    code (`strip`, `split`, `lstrip`, `startswith`, `join`, slicing) are
    re-implemented below over the character list so that everything reduces
    in the kernel.
  * JSON values produced by `json.loads` are the inductive `Json`;
    `json.loads` itself is an oracle (`Env.decode`, `none` = JSONDecodeError).
  * The two external collaborators (Anthropic API, FireCrawl API) are
    oracles: `Env.search` gives the value `fire_crawl` returns for a query
    and `Env.claude` gives the outcome of `call_claude` for a prompt
    (`Except.error ()` = the call raised after exhausting its retries).
    Prompts are represented by the inductive `Prompt`, one constructor per
    f-string template of the source, applied to the interpolated data; this
    keeps distinct prompts distinct without re-implementing Python string
    formatting.
  * Exceptions are `Except Unit`; a caught exception is an `Except.error`
    consumed at the catch site.
  * The `status_callback` emissions, the `print` logging and the network
    calls are recorded in an event trace (`Event`), which is how claims
    about "network calls performed" and "the generator was invoked" are
    stated.  Purely informational `rate_limit` notices are elided.
  * `research_topic` recurses on the Python int `depth` with base case
    `depth <= 0`; the Lean embedding drives the recursion with the standard
    fuel argument fixed to `depth.toNat` by the wrapper (exactly the number
    of remaining levels), all other arguments being carried unchanged.
  * The concurrent fan-out (`ThreadPoolExecutor` / `asyncio.gather`) is
    modelled by the serialized single-worker linearization: sibling branches
    run to completion in creation order, which is the determinization the
    spec itself designates for testing (§8).
  * Python's `list(set(xs))` deduplication is modelled by `List.dedup`
    (first-occurrence order); CPython leaves the order unspecified, and no
    claim below depends on the order, only on duplicate-freeness and
    membership.
-/

/-! ## Python string primitives -/

/-- The characters Python `str.strip()` removes (`str.isspace` for the
ASCII range actually occurring in this code base). -/
def pyIsSpace (c : Char) : Bool :=
  c = ' ' || c = '\t' || c = '\n' || c = '\r' || c = '\x0b' || c = '\x0c'

/-- Python `s.strip()`. -/
def pyStrip (s : String) : String :=
  ⟨((s.data.dropWhile pyIsSpace).reverse.dropWhile pyIsSpace).reverse⟩

def splitNlAux : List Char → List Char → List String
  | [], cur => [⟨cur.reverse⟩]
  | c :: rest, cur =>
    if c = '\n' then ⟨cur.reverse⟩ :: splitNlAux rest [] else splitNlAux rest (c :: cur)

/-- Python `s.split('\n')` (keeps empty parts; `""` gives `[""]`). -/
def pySplitNl (s : String) : List String := splitNlAux s.data []

/-- Python `s.lstrip(cs)`: drop every leading character belonging to `cs`. -/
def pyLstrip (cs : List Char) (s : String) : String := ⟨s.data.dropWhile (· ∈ cs)⟩

/-- Python `s.startswith(c)` for a one-character pattern. -/
def headIs (c : Char) (s : String) : Bool := s.data.head? = some c

/-- Python `'\n'.join(xs)`. -/
def joinNl : List String → String
  | [] => ""
  | [s] => s
  | s :: rest => s ++ "\n" ++ joinNl rest

/-- Python `s[:n]` for a nonnegative `n`. -/
def pyTakeStr (n : Nat) (s : String) : String := ⟨s.data.take n⟩

def leadsWith : List Char → List Char → Bool
  | [], _ => true
  | _ :: _, [] => false
  | p :: ps, c :: cs => p = c && leadsWith ps cs

def occursIn (pat : List Char) : List Char → Bool
  | [] => leadsWith pat []
  | c :: cs => leadsWith pat (c :: cs) || occursIn pat cs

/-- Python `pat in s` for strings (substring test). -/
def strContains (s pat : String) : Bool := occursIn pat.data s.data

/-! ## JSON values (results of `json.loads`) -/

inductive Json where
  | null
  | bool (b : Bool)
  | num (n : Int)
  | str (s : String)
  | arr (xs : List Json)
  | obj (fields : List (String × Json))

/-- Python truthiness of a JSON value (`if not topic_query: continue`). -/
def pyFalsy : Json → Bool
  | .null => true
  | .bool b => !b
  | .num n => n = 0
  | .str s => s = ""
  | .arr xs => xs.isEmpty
  | .obj fs => fs.isEmpty

/-- Python `k in topic` for a parsed JSON value `topic`:
key membership for a dict, element membership for a list, substring test
for a string, and an uncaught `TypeError` (`Except.error`) for every
non-container value — exactly CPython's `in` operator. -/
def pyContains (k : String) : Json → Except Unit Bool
  | .obj fs => .ok (fs.any (fun p => p.1 = k))
  | .arr xs => .ok (xs.any (fun j => match j with | .str s => s = k | _ => false))
  | .str s => .ok (strContains s k)
  | _ => .error ()

/-- Python `topics[:n]` where `n` is an arbitrary Python int
(negative `n` drops `|n|` elements from the end, as slicing does). -/
def pyTake (n : Int) (xs : List Json) : List Json :=
  if 0 ≤ n then xs.take n.toNat
  else xs.take (xs.length - min n.natAbs xs.length)

/-! ## Data classes -/

/-- `ResearchResult` (`research_agent.py`, both copies). -/
structure ResearchResult where
  learnings : List String
  visited_urls : List String
  deriving DecidableEq

/-- One search result dict as consumed by the agent
(`{"title": ..., "url": ..., "markdown": ...}`). -/
structure SearchResult where
  title : String
  url : String
  markdown : String
  deriving DecidableEq

/-! ## `extract_learnings` (identical in both copies)

```python
learnings = []
for line in content.split('\n'):
    line = line.strip()
    if line.startswith('*') or line.startswith('-'):
        learning = line.lstrip('*- ').strip()
        if learning:
            learnings.append(learning)
return learnings
``` -/

/-- One iteration of the extraction loop. -/
def extractStep (learnings : List String) (line : String) : List String :=
  let line := pyStrip line
  if headIs '*' line || headIs '-' line then
    let learning := pyStrip (pyLstrip ['*', '-', ' '] line)
    if learning ≠ "" then learnings ++ [learning] else learnings
  else learnings

def extract_learnings (content : String) : List String :=
  (pySplitNl content).foldl extractStep []

/-- The extractor as claim C8 words it: a qualifying line keeps everything
after "the bullet marker and following separating whitespace" — i.e. one
leading marker character is removed and the remainder is trimmed. -/
def extractSpecC8 (content : String) : List String :=
  (pySplitNl content).foldl
    (fun learnings line =>
      let line := pyStrip line
      if headIs '*' line || headIs '-' line then
        let learning := pyStrip ⟨line.data.drop 1⟩
        if learning ≠ "" then learnings ++ [learning] else learnings
      else learnings)
    []

/-- What a qualifying line contributes under the amended reading of C8:
everything after the whole leading run of `*`, `-` and space characters,
or nothing when that remainder is empty. -/
def extractAmendedF (line : String) : Option String :=
  let line := pyStrip line
  if headIs '*' line || headIs '-' line then
    let learning := pyStrip (pyLstrip ['*', '-', ' '] line)
    if learning = "" then none else some learning
  else none

/-- The extractor as amended: the lines that after trimming start with a
bullet marker, each stripped of its whole leading marker/space run, empties
discarded, order preserved — stated as a `filterMap` over the lines. -/
def extractAmendedSpec (content : String) : List String :=
  (pySplitNl content).filterMap extractAmendedF

/-! ## `fire_crawl`, copy V1 (`src/research_agent.py`)

The raw-`requests` retry loop: `max_retries = 5` attempts; a 200 response
returns its `data` list at once (even when empty); any other status code or
network error retries until the last attempt, which returns `[]`.  The
function never raises: `RequestException` (which since requests 2.27 also
covers JSON-decode failures of the body) is the only exception the body can
produce and it is caught.  One `HttpAttempt` describes the outcome of one
iteration; a run of the loop consumes one outcome per iteration, so a full
run is a list of exactly `max_retries = 5` outcomes. -/

inductive HttpAttempt where
  | ok (data : List SearchResult)
  | status (code : Nat)
  | netError
  deriving DecidableEq

def HttpAttempt.isOk : HttpAttempt → Bool
  | .ok _ => true
  | _ => false

def fireCrawlV1 : List HttpAttempt → List SearchResult
  | [] => []
  | [a] =>
    match a with
    | .ok d => d
    | _ => []
  | a :: rest =>
    match a with
    | .ok d => d
    | _ => fireCrawlV1 rest

/-! ## `fire_crawl`, copy V2 (`src/research/research_agent.py`)

Wraps `firecrawlapp.search`; an empty (or missing) `data` and any raised
exception both produce a single synthetic result pointing at Claude's
built-in knowledge.  `item.title or ...` / `item.markdown or ...` are
Python `or`-defaults over possibly-missing, possibly-empty fields. -/

structure SearchItem where
  title : Option String
  url : String
  markdown : Option String
  deriving DecidableEq

inductive SearchOutcome where
  | ok (data : List SearchItem)
  | err
  deriving DecidableEq

/-- Python `v or d` for an optional string `v`. -/
def pyOr (v : Option String) (d : String) : String :=
  match v with
  | none => d
  | some s => if s = "" then d else s

def fireCrawlV2 (query : String) : SearchOutcome → List SearchResult
  | .err =>
    [⟨"Using Claude\x27s knowledge (API Error)", "https://example.com/claude-knowledge",
      "Research for \x27" ++ query ++ "\x27 will use Claude\x27s built-in knowledge instead of live web search due to API errors."⟩]
  | .ok data =>
    if data.isEmpty then
      [⟨"Using Claude\x27s knowledge", "https://example.com/claude-knowledge",
        "Research for \x27" ++ query ++ "\x27 will use Claude\x27s built-in knowledge instead of live web search due to API limitations."⟩]
    else
      data.map (fun it => ⟨pyOr it.title "Untitled Page", it.url,
        pyOr it.markdown ("No content extracted from " ++ it.url)⟩)

/-! ## Prompts, events, environment -/

/-- One constructor per f-string prompt template of the source, applied to
the data interpolated into it.  Queries flowing through the recursion are
JSON values (a follow-up topic's `query` field need not be a string). -/
inductive Prompt where
  | analysis (query : Json) (title : String) (content : String)
  | followup (content : String) (query : Json) (numTopics : Int)
  | summary (query : Json) (content : String)
  | fallbackOverview (query : Json)
  | fallbackSummary (query : Json)

/-- The observable steps of a run: the `status_callback` emissions of the
source plus the two kinds of outbound network call. -/
inductive Event where
  | research_start (query : Json) (depth breadth : Int)
  | search_call (query : Json)
  | claude_call (prompt : Prompt)
  | source_processing (title url : String)
  | new_learning (text : String)
  | followup_topic (query : Json)

/-- The two external services and the JSON parser, as oracles.
`search` is the value `fire_crawl` hands back for a query (per `fireCrawlV1`
/ `fireCrawlV2` it never raises); `claude` is the outcome of `call_claude`
for a prompt (`error` = raised after exhausting retries); `decode` is
`json.loads` (`none` = `JSONDecodeError`). -/
structure Env where
  search : Json → List SearchResult
  claude : Prompt → Except Unit String
  decode : String → Option Json

/-! ## `generate_followup_topics` (identical in both copies)

```python
response = self.call_claude(prompt)
try:
    topics = json.loads(response)
    if not isinstance(topics, list):
        raise ValueError(...)
    for topic in topics:
        if 'query' not in topic or 'research_goal' not in topic:
            raise ValueError(...)
except json.JSONDecodeError: return []
except ValueError: return []
return topics[:num_topics]
```
Only `JSONDecodeError` and `ValueError` are caught: when an entry is a
non-container value, `'query' not in topic` raises `TypeError`, which
propagates (`validateTopics` returning `Except.error`). -/

/-- The validation loop: `.ok true` = all entries pass, `.ok false` = a
`ValueError` was raised (missing key, caught by the function), `.error` =
a `TypeError` escaped from the `in` test (not caught). -/
def validateTopics : List Json → Except Unit Bool
  | [] => .ok true
  | t :: rest =>
    match pyContains "query" t with
    | .error e => .error e
    | .ok false => .ok false
    | .ok true =>
      match pyContains "research_goal" t with
      | .error e => .error e
      | .ok false => .ok false
      | .ok true => validateTopics rest

def generate_followup_topics (env : Env) (content : String) (query : Json)
    (num_topics : Int) : Except Unit (List Json) × List Event :=
  let p := Prompt.followup content query num_topics
  let ev := [Event.claude_call p]
  match env.claude p with
  | .error e => (.error e, ev)
  | .ok response =>
    match env.decode response with
    | none => (.ok [], ev)
    | some j =>
      match j with
      | .arr topics =>
        match validateTopics topics with
        | .error e => (.error e, ev)
        | .ok false => (.ok [], ev)
        | .ok true => (.ok (pyTake num_topics topics), ev)
      | _ => (.ok [], ev)

/-! ## `call_claude` and its conversation contexts

```python
for attempt in range(max_retries):
    try:
        if context_id and context_id in self.chat_contexts:
            context = self.chat_contexts[context_id]
            context.messages.append({"role": "user", "content": prompt})
            response = self.client.messages.create(...)
            context.messages.append({"role": "assistant", ...})
            return response...
        else:
            new_context = ChatContext(messages=[{"role": "user", ...}], ...)
            response = self.client.messages.create(...)
            new_context.messages.append({"role": "assistant", ...})
            if context_id: self.chat_contexts[context_id] = new_context
            return response...
    except Exception:
        if attempt < max_retries - 1: continue   # (after backoff)
        else: raise
```
`max_retries` is 5 in V1 and 3 in V2; the control flow is identical, so the
retry ceiling is a parameter.  The API outcome of the `attempt`-th
iteration is the oracle `api attempt` (`none` = the call raised).  The
`chat_contexts` dict is a partial map from id to message list; `created_at`
plays no role and is dropped. -/

structure Msg where
  role : String
  content : String
  deriving DecidableEq

/-- `self.chat_contexts`, as a partial map. -/
def Ctxs := String → Option (List Msg)

def Ctxs.set (m : Ctxs) (id : String) (msgs : List Msg) : Ctxs :=
  fun x => if x = id then some msgs else m x

/-- `context_id and context_id in self.chat_contexts`: the known context,
when `cid` is truthy and registered. -/
def findCtx (ctxs : Ctxs) (cid : Option String) : Option (String × List Msg) :=
  match cid with
  | some id => if id = "" then none else (ctxs id).map (fun ms => (id, ms))
  | none => none

/-- `if context_id: self.chat_contexts[context_id] = new_context`. -/
def registerCtx (ctxs : Ctxs) (cid : Option String) (msgs : List Msg) : Ctxs :=
  match cid with
  | some id => if id = "" then ctxs else ctxs.set id msgs
  | none => ctxs

/-- One iteration of `call_claude`'s retry loop: either the call returned
(`.inl`, carrying result and new state) or this attempt failed (`.inr`,
carrying the state left behind by the attempt — with the user turn already
appended when the context existed). -/
def attemptStep (api : Nat → Option String) (prompt : String)
    (cid : Option String) (attempt : Nat) (ctxs : Ctxs) :
    (Except Unit String × Ctxs) ⊕ Ctxs :=
  match findCtx ctxs cid with
  | some idms =>
    let ms1 := idms.2 ++ [⟨"user", prompt⟩]
    let ctxs1 := ctxs.set idms.1 ms1
    match api attempt with
    | some resp => .inl (.ok resp, ctxs1.set idms.1 (ms1 ++ [⟨"assistant", resp⟩]))
    | none => .inr ctxs1
  | none =>
    let fresh : List Msg := [⟨"user", prompt⟩]
    match api attempt with
    | some resp => .inl (.ok resp, registerCtx ctxs cid (fresh ++ [⟨"assistant", resp⟩]))
    | none => .inr ctxs

/-- The retry loop.  `fuel` counts the remaining iterations
(`fuel + 1 + attempt = max_retries` along a run), so the Python guard
`attempt < max_retries - 1` is exactly `fuel ≠ 0`. -/
def callClaudeGo (api : Nat → Option String) (prompt : String)
    (cid : Option String) : Nat → Nat → Ctxs → Except Unit String × Ctxs
  | _, 0, ctxs => (.error (), ctxs)
  | attempt, fuel+1, ctxs =>
    match attemptStep api prompt cid attempt ctxs with
    | .inl done => done
    | .inr ctxs1 =>
      if fuel = 0 then (.error (), ctxs1)
      else callClaudeGo api prompt cid (attempt+1) fuel ctxs1

/-- `call_claude(prompt, context_id)` over a `chat_contexts` state;
returns the result (or the propagated exception) and the new state. -/
def call_claude (api : Nat → Option String) (maxRetries : Nat)
    (ctxs : Ctxs) (prompt : String) (cid : Option String) :
    Except Unit String × Ctxs :=
  callClaudeGo api prompt cid 0 maxRetries ctxs

/-! ## `research_topic`, copy V1 (`src/research_agent.py`)

Per-result processing (the inner `try`/`except` of the result loop):
content check, `source_processing` callback, URL recorded, one
`call_claude` analysis, learnings extracted and appended.  A failure of the
analysis call is caught (`continue`), leaving the already-recorded URL in
place. -/

def stepResultV1 (env : Env) (query : Json)
    (st : ResearchResult × List Event) (r : SearchResult) :
    ResearchResult × List Event :=
  if r.markdown = "" then st
  else
    let evs := st.2 ++ [Event.source_processing r.title r.url]
    let acc := { st.1 with visited_urls := st.1.visited_urls ++ [r.url] }
    let p := Prompt.analysis query r.title r.markdown
    let evs := evs ++ [Event.claude_call p]
    match env.claude p with
    | .error _ => (acc, evs)
    | .ok analysis =>
      let ls := extract_learnings analysis
      ({ acc with learnings := acc.learnings ++ ls },
        evs ++ ls.map Event.new_learning)

/-- The result of one V1 invocation: the accumulator, the event trace, and
whether the invocation raised (V1 has no outer `try`, so an exception from
`generate_followup_topics` — or from a child branch via `asyncio.gather` —
propagates; the accumulator still holds every mutation made before the
exception, because it is shared by reference). -/
structure RunOut where
  res : ResearchResult
  trace : List Event
  raised : Bool

/-- Launching one follow-up branch in V1: `topic['query']` (a `TypeError`
for a non-dict entry — uncaught), the `followup_topic` callback, then the
recursive call on the shared accumulator.  Once something raised, the
remaining branches are not run (the serialized linearization of
`asyncio.gather`'s failure propagation). -/
def stepKidV1 (recurse : Json → ResearchResult → RunOut)
    (st : RunOut) (t : Json) : RunOut :=
  if st.raised then st
  else
    match t with
    | .obj fs =>
      match fs.lookup "query" with
      | some tq =>
        let child := recurse tq st.res
        ⟨child.res, st.trace ++ [Event.followup_topic tq] ++ child.trace, child.raised⟩
      | none => ⟨st.res, st.trace, true⟩
    | _ => ⟨st.res, st.trace, true⟩

/-- The body of V1's `research_topic`, fuel-driven (`fuel = depth.toNat`).

```python
if depth <= 0: return existing_results
... status_callback("research_start", query) ...
results = self.fire_crawl(query)
for result in results: ...            # stepResultV1, per-item try
if depth > 1:
    followup_topics = self.generate_followup_topics(
        content="\n".join(existing_results.learnings), query=query, num_topics=breadth)
    for topic in followup_topics:     # stepKidV1
        ... research_topic(topic['query'], depth-1, max(1, breadth-1), existing_results)
    await asyncio.gather(*tasks)
existing_results.learnings = list(set(existing_results.learnings))
existing_results.visited_urls = list(set(existing_results.visited_urls))
return existing_results
```

Note the missing-learnings gate: V1 generates follow-ups whenever
`depth > 1`, even when no learning was accumulated.  The final
deduplication runs only on normal return (an exception skips it). -/
def goV1 (env : Env) : Nat → Json → Int → Int → ResearchResult → RunOut
  | 0, _, _, _, acc => ⟨acc, [], false⟩
  | fuel+1, q, d, b, acc =>
    if d ≤ 0 then ⟨acc, [], false⟩
    else
      let ev0 := [Event.research_start q d b, Event.search_call q]
      let pr := (env.search q).foldl (stepResultV1 env q) (acc, [])
      if 1 < d then
        let gf := generate_followup_topics env (joinNl pr.1.learnings) q b
        match gf.1 with
        | .error _ => ⟨pr.1, ev0 ++ pr.2 ++ gf.2, true⟩
        | .ok topics =>
          let out := topics.foldl
            (stepKidV1 (fun tq a => goV1 env fuel tq (d-1) (max 1 (b-1)) a))
            ⟨pr.1, [], false⟩
          if out.raised then ⟨out.res, ev0 ++ pr.2 ++ gf.2 ++ out.trace, true⟩
          else ⟨⟨out.res.learnings.dedup, out.res.visited_urls.dedup⟩,
                 ev0 ++ pr.2 ++ gf.2 ++ out.trace, false⟩
      else ⟨⟨pr.1.learnings.dedup, pr.1.visited_urls.dedup⟩, ev0 ++ pr.2, false⟩

/-- `ResearchAgent.research_topic` of `src/research_agent.py`. -/
def research_topicV1 (env : Env) (query : Json) (depth breadth : Int)
    (existing_results : Option ResearchResult) : RunOut :=
  goV1 env depth.toNat query depth breadth (existing_results.getD ⟨[], []⟩)

/-! ## `research_topic`, copy V2 (`src/research/research_agent.py`) -/

/-- Per-result processing in V2: the `source_processing` callback comes
before the content check, the analysis prompt truncates the content to
5000 characters, and the extend is gated by `if new_learnings:`. -/
def stepResultV2 (env : Env) (query : Json)
    (st : ResearchResult × List Event) (r : SearchResult) :
    ResearchResult × List Event :=
  let acc := st.1
  let evs := st.2 ++ [Event.source_processing r.title r.url]
  if r.markdown = "" then (acc, evs)
  else
    let acc := { acc with visited_urls := acc.visited_urls ++ [r.url] }
    let p := Prompt.analysis query r.title (pyTakeStr 5000 r.markdown)
    let evs := evs ++ [Event.claude_call p]
    match env.claude p with
    | .error _ => (acc, evs)
    | .ok analysis =>
      let ls := extract_learnings analysis
      if ls = [] then (acc, evs)
      else ({ acc with learnings := acc.learnings ++ ls },
             evs ++ ls.map Event.new_learning)

/-- V2's task-creation loop: `topic.get('query')` (an `AttributeError` for
a non-dict entry, caught by the *outer* `try`, before any task ran), falsy
queries skipped, one `followup_topic` callback per created task.  Returns
the queries whose coroutines were created, or `.error` with the events
emitted before the abort. -/
def collectQueriesV2 : List Json → Except (List Event) (List Json × List Event)
  | [] => .ok ([], [])
  | t :: rest =>
    match t with
    | .obj fs =>
      match fs.lookup "query" with
      | some tq =>
        if pyFalsy tq then collectQueriesV2 rest
        else
          match collectQueriesV2 rest with
          | .ok qse => .ok (tq :: qse.1, Event.followup_topic tq :: qse.2)
          | .error evs => .error (Event.followup_topic tq :: evs)
      | none => collectQueriesV2 rest
    | _ => .error []

/-- Running one created branch in V2 (the `asyncio.gather`, serialized).
A V2 branch never raises (its whole body is inside `try`/`except`). -/
def stepKidV2 (recurse : Json → ResearchResult → ResearchResult × List Event)
    (st : ResearchResult × List Event) (tq : Json) :
    ResearchResult × List Event :=
  let child := recurse tq st.1
  (child.1, st.2 ++ child.2)

/-- The body of V2's `research_topic`, fuel-driven (`fuel = depth.toNat`).

```python
if depth <= 0: return existing_results
... status_callback("research_start", query) ...
try:
    results = self.fire_crawl(query)
    if not results: ... return existing_results      # skips the dedup below
    for result in results: ...                       # stepResultV2, per-item try
    if depth > 1 and existing_results.learnings:
        followup_topics = self.generate_followup_topics(...)
        for topic in followup_topics: ...            # collectQueriesV2
        if follow_up_tasks: await asyncio.gather(*follow_up_tasks)
except Exception: ...                                # fall through
existing_results.learnings = list(set(existing_results.learnings))
existing_results.visited_urls = list(set(existing_results.visited_urls))
return existing_results
```

Unlike V1, the generator runs only when at least one learning is present
in the shared accumulator, and every exception of the body is caught, so
a V2 call always returns (with the dedup applied) — except on the
empty-results early `return`, which skips the dedup. -/
def goV2 (env : Env) : Nat → Json → Int → Int → ResearchResult →
    ResearchResult × List Event
  | 0, _, _, _, acc => (acc, [])
  | fuel+1, q, d, b, acc =>
    if d ≤ 0 then (acc, [])
    else
      let ev0 := [Event.research_start q d b, Event.search_call q]
      let results := env.search q
      if results.isEmpty then (acc, ev0)
      else
        let pr := results.foldl (stepResultV2 env q) (acc, [])
        let fl :=
          if 1 < d ∧ pr.1.learnings ≠ [] then
            let gf := generate_followup_topics env (joinNl pr.1.learnings) q b
            match gf.1 with
            | .error _ => (pr.1, gf.2)
            | .ok topics =>
              match collectQueriesV2 topics with
              | .error evC => (pr.1, gf.2 ++ evC)
              | .ok qse =>
                let out := qse.1.foldl
                  (stepKidV2 (fun tq a => goV2 env fuel tq (d-1) (max 1 (b-1)) a))
                  (pr.1, [])
                (out.1, gf.2 ++ qse.2 ++ out.2)
          else (pr.1, [])
        (⟨fl.1.learnings.dedup, fl.1.visited_urls.dedup⟩, ev0 ++ pr.2 ++ fl.2)

/-- `ResearchAgent.research_topic` of `src/research/research_agent.py`. -/
def research_topicV2 (env : Env) (query : Json) (depth breadth : Int)
    (existing_results : Option ResearchResult) : ResearchResult × List Event :=
  goV2 env depth.toNat query depth breadth (existing_results.getD ⟨[], []⟩)

/-! ## `simple_research`, both copies -/

/-- `"\n\n## Sources\n\n" + "\n".join(f"- {url}" ...)`. -/
def sourcesSection (urls : List String) : String :=
  "\n\n## Sources\n\n" ++ joinNl (urls.map (fun u => "- " ++ u))

/-- The content/url gathering loop shared by both copies: one
`source_processing` callback per result, content concatenated and URL kept
for results with nonempty markdown. -/
def gatherStep (st : String × List String × List Event) (r : SearchResult) :
    String × List String × List Event :=
  let es := st.2.2 ++ [Event.source_processing r.title r.url]
  if r.markdown ≠ "" then
    (st.1 ++ "\n\n## " ++ r.title ++ "\n\n" ++ r.markdown, st.2.1 ++ [r.url], es)
  else (st.1, st.2.1, es)

def gatherContent (results : List SearchResult) :
    String × List String × List Event :=
  results.foldl gatherStep ("", [], [])

/-- `ResearchAgent.simple_research` of `src/research_agent.py`: no
model-only fallback — when nothing had content it returns a fixed string,
calling the model zero times. -/
def simple_researchV1 (env : Env) (query : Json) :
    Except Unit String × List Event :=
  let evS := [Event.search_call query]
  let g := gatherContent (env.search query)
  if g.1 = "" then
    (.ok "Couldn\x27t find relevant information on this topic.", evS ++ g.2.2)
  else
    let p := Prompt.summary query g.1
    match env.claude p with
    | .error e => (.error e, evS ++ g.2.2 ++ [Event.claude_call p])
    | .ok resp => (.ok (resp ++ sourcesSection g.2.1), evS ++ g.2.2 ++ [Event.claude_call p])

def disclaimerApiLimits : String :=
  "\n\n> *Note: This research was generated using Claude\x27s knowledge rather than live web search results due to API limitations.*"

def disclaimerNoSearch : String :=
  "\n\n> *Note: This research was generated using Claude\x27s knowledge rather than live web search results.*"

/-- `ResearchAgent.simple_research` of `src/research/research_agent.py`:
empty result list → model-only overview plus a disclaimer; results but no
content → model-only summary plus a disclaimer; otherwise the summary of
the gathered content plus a sources section. -/
def simple_researchV2 (env : Env) (query : Json) :
    Except Unit String × List Event :=
  let evS := [Event.search_call query]
  let results := env.search query
  if results.isEmpty then
    let p := Prompt.fallbackOverview query
    match env.claude p with
    | .error e => (.error e, evS ++ [Event.claude_call p])
    | .ok resp => (.ok (resp ++ disclaimerApiLimits), evS ++ [Event.claude_call p])
  else
    let g := gatherContent results
    if g.1 = "" then
      let p := Prompt.fallbackSummary query
      match env.claude p with
      | .error e => (.error e, evS ++ g.2.2 ++ [Event.claude_call p])
      | .ok resp => (.ok (resp ++ disclaimerNoSearch), evS ++ g.2.2 ++ [Event.claude_call p])
    else
      let p := Prompt.summary query g.1
      match env.claude p with
      | .error e => (.error e, evS ++ g.2.2 ++ [Event.claude_call p])
      | .ok resp => (.ok (resp ++ sourcesSection g.2.1), evS ++ g.2.2 ++ [Event.claude_call p])

/-! ## Small helpers and concrete environments used by the theorems below -/

def jsonIsArr : Json → Bool
  | .arr _ => true
  | _ => false

/-- Whether a trace contains any language-model call. -/
def hasClaudeCall (evs : List Event) : Bool :=
  evs.any fun e => match e with | .claude_call _ => true | _ => false

/-- An environment where the search finds nothing and every model call
raises. -/
def envEmpty : Env := ⟨fun _ => [], fun _ => .error (), fun _ => none⟩

/-- The model answers `"[1]"`, which parses to the JSON list `[1]`. -/
def envC7 : Env := ⟨fun _ => [], fun _ => .ok "[1]", fun _ => some (.arr [.num 1])⟩

def topicsC7 : List Json :=
  [.obj [("query", .str "q1"), ("research_goal", .str "g1")],
   .obj [("query", .str "q2"), ("research_goal", .str "g2")]]

/-- The model answers with two well-formed follow-up topics. -/
def envC7ok : Env := ⟨fun _ => [], fun _ => .ok "RESP", fun _ => some (.arr topicsC7)⟩

/-- Search finds nothing, the model answers plain text that is not JSON. -/
def envC5x : Env := ⟨fun _ => [], fun _ => .ok "not json", fun _ => none⟩

/-- Search finds one content-less result, the model answers non-JSON text. -/
def envC5w : Env :=
  ⟨fun _ => [⟨"t", "u", ""⟩], fun _ => .ok "not json", fun _ => none⟩

/-- Search finds nothing, the model always answers `"RESP"`. -/
def envNoResults : Env := ⟨fun _ => [], fun _ => .ok "RESP", fun _ => none⟩

/-- Search finds one result without content, the model answers `"RESP"`. -/
def envNoContent : Env :=
  ⟨fun _ => [⟨"t", "u", ""⟩], fun _ => .ok "RESP", fun _ => none⟩

def r1C9 : SearchResult := ⟨"t1", "u1", "m1"⟩
def r2C9 : SearchResult := ⟨"t2", "u2", "m2"⟩
def r3C9 : SearchResult := ⟨"t3", "u3", "m3"⟩

/-- Three sources; analysing the second one raises, the other two yield the
bullet `* W1`. -/
def envC9 : Env :=
  ⟨fun _ => [r1C9, r2C9, r3C9],
   fun p => match p with
     | .analysis _ t _ => if t = "t2" then .error () else .ok "* W1"
     | _ => .ok "",
   fun _ => none⟩

/-! # Theorems

## C8 — the learning extractor -/

theorem foldl_filterMap_of_step {σ τ : Type} (step : List τ → σ → List τ)
    (f : σ → Option τ)
    (h : ∀ a x, step a x = a ++ (f x).toList) :
    ∀ (l : List σ) (acc : List τ), l.foldl step acc = acc ++ l.filterMap f := by
  intro l
  induction l with
  | nil => intro acc; simp
  | cons x xs ih =>
    intro acc
    rw [List.foldl_cons, h, List.filterMap_cons]
    cases hfx : f x with
    | none => simp only [hfx, Option.toList_none, List.append_nil]; exact ih acc
    | some y =>
      simp only [hfx, Option.toList_some, ih (acc ++ [y]), List.append_assoc,
        List.singleton_append]

theorem extractStep_eq_amended (a : List String) (x : String) :
    extractStep a x = a ++ (extractAmendedF x).toList := by
  unfold extractStep extractAmendedF
  by_cases h1 : (headIs '*' (pyStrip x) || headIs '-' (pyStrip x)) = true
  · simp only [h1, if_true]
    by_cases h2 : pyStrip (pyLstrip ['*', '-', ' '] (pyStrip x)) = ""
    · simp [h2]
    · simp [h2]
  · simp [h1]

theorem extract_learnings_eq_amended (content : String) :
    extract_learnings content = extractAmendedSpec content := by
  unfold extract_learnings extractAmendedSpec
  rw [foldl_filterMap_of_step extractStep extractAmendedF extractStep_eq_amended]
  simp

/-- C8 (counterexample): on `"* * A"` the code strips the whole leading
run `* * ` and returns `["A"]`, while stripping only "the bullet marker
and following separating whitespace" would return `["* A"]`. -/
theorem c8_counterexample :
    extract_learnings "* * A" = ["A"] ∧ extractSpecC8 "* * A" = ["* A"] ∧
    (["A"] : List String) ≠ ["* A"] := ⟨rfl, rfl, by decide⟩

/-- C8 (amended): `extract_learnings` returns exactly the lines which after
trimming whitespace begin with `*` or `-`, with the whole leading run of
bullet-marker and space characters stripped (repeated markers are removed
too), empty results discarded and order preserved; in particular
`extract_learnings "* A\n- B\nplain text\n*C" = ["A", "B", "C"]`. -/
theorem c8_extractor :
    (∀ content, extract_learnings content = extractAmendedSpec content) ∧
    extract_learnings "* A\n- B\nplain text\n*C" = ["A", "B", "C"] :=
  ⟨extract_learnings_eq_amended, rfl⟩

/-! ## C4 — the web-search fallback -/

/-- C4 (counterexample): in `src/research_agent.py`, a run of `fire_crawl`
whose `max_retries = 5` attempts all fail returns the empty list, not a
single synthetic `SearchResult`. -/
theorem c4_counterexample :
    fireCrawlV1 (List.replicate 5 HttpAttempt.netError) = [] ∧
    (List.replicate 5 HttpAttempt.netError).length = 5 ∧
    (List.replicate 5 HttpAttempt.netError).all (fun a => !a.isOk) = true :=
  ⟨rfl, rfl, rfl⟩

theorem fireCrawlV1_allFail :
    ∀ attempts, (∀ a ∈ attempts, a.isOk = false) → fireCrawlV1 attempts = [] := by
  intro attempts h
  induction attempts with
  | nil => rfl
  | cons a rest ih =>
    cases rest with
    | nil =>
      cases a with
      | ok d => exact absurd (h (.ok d) (by simp)) (by simp [HttpAttempt.isOk])
      | status c => rfl
      | netError => rfl
    | cons b r =>
      cases a with
      | ok d => exact absurd (h (.ok d) (by simp)) (by simp [HttpAttempt.isOk])
      | status c =>
        simpa [fireCrawlV1] using ih (fun x hx => h x (List.mem_cons_of_mem _ hx))
      | netError =>
        simpa [fireCrawlV1] using ih (fun x hx => h x (List.mem_cons_of_mem _ hx))

/-- C4 (amended): the copy in `src/research/research_agent.py` never
returns an empty list — on a raised search error or an empty `data` it
returns exactly one synthetic result pointing at the Claude-knowledge
placholder URL, with nonempty content — while the copy in
`src/research_agent.py` returns the empty list once every attempt has
failed (both copies return rather than raise, by construction). -/
theorem c4_fallback :
    (∀ (q : String) (oc : SearchOutcome), fireCrawlV2 q oc ≠ []) ∧
    (∀ q, ∃ r, fireCrawlV2 q .err = [r] ∧
       r.url = "https://example.com/claude-knowledge" ∧ r.markdown ≠ "") ∧
    (∀ q, ∃ r, fireCrawlV2 q (.ok []) = [r] ∧
       r.url = "https://example.com/claude-knowledge" ∧ r.markdown ≠ "") ∧
    (∀ attempts, (∀ a ∈ attempts, a.isOk = false) → fireCrawlV1 attempts = []) := by
  refine ⟨?_, ?_, ?_, fireCrawlV1_allFail⟩
  · intro q oc
    cases oc with
    | err => simp [fireCrawlV2]
    | ok data =>
      cases data with
      | nil => simp [fireCrawlV2]
      | cons x xs => simp [fireCrawlV2]
  · intro q
    refine ⟨_, rfl, rfl, ?_⟩
    intro heq
    have := congrArg String.data heq
    simp [String.data_append] at this
  · intro q
    refine ⟨_, rfl, rfl, ?_⟩
    intro heq
    have := congrArg String.data heq
    simp [String.data_append] at this

theorem c4_witness :
    fireCrawlV1 [HttpAttempt.netError, .netError, .netError, .netError, .netError] = [] ∧
    fireCrawlV2 "anything" SearchOutcome.err ≠ [] :=
  ⟨c4_fallback.2.2.2 _ (by intro a ha; simp at ha; simp [ha, HttpAttempt.isOk]),
   c4_fallback.1 "anything" .err⟩

/-! ## C7 — follow-up topic parsing -/

/-- C7 (counterexample): when the model response parses to the JSON list
`[1]`, the membership test `'query' not in topic` raises `TypeError`,
which is not caught (only `JSONDecodeError` and `ValueError` are), so
`generate_followup_topics` propagates an exception instead of returning
an empty list. -/
theorem c7_counterexample :
    (generate_followup_topics envC7 "" (.str "topic") 3).1 = .error () := rfl

/-- C7 (amended): for every model response, `generate_followup_topics`
returns `[]` on malformed JSON, a non-list top-level value, or any entry
missing `query`/`research_goal` whose membership test succeeds
(reject-whole-batch), and truncates a successful batch to at most
`num_topics` entries; however, an entry that is a non-container value
makes the membership test raise `TypeError`, which propagates. -/
theorem c7_parse_robustness :
    ∀ (env : Env) (content : String) (query : Json) (n : Int) (resp : String),
    env.claude (.followup content query n) = .ok resp →
    ((env.decode resp = none →
        (generate_followup_topics env content query n).1 = .ok []) ∧
     (∀ j, env.decode resp = some j → jsonIsArr j = false →
        (generate_followup_topics env content query n).1 = .ok []) ∧
     (∀ topics, env.decode resp = some (.arr topics) →
        validateTopics topics = .ok false →
        (generate_followup_topics env content query n).1 = .ok []) ∧
     (∀ topics, env.decode resp = some (.arr topics) →
        validateTopics topics = .ok true →
        (generate_followup_topics env content query n).1 = .ok (pyTake n topics) ∧
        (0 ≤ n → (pyTake n topics).length ≤ n.toNat)) ∧
     (∀ topics, env.decode resp = some (.arr topics) →
        validateTopics topics = .error () →
        (generate_followup_topics env content query n).1 = .error ())) := by
  intro env content query n resp hcl
  refine ⟨?_, ?_, ?_, ?_, ?_⟩
  · intro hdec
    simp [generate_followup_topics, hcl, hdec]
  · intro j hdec harr
    cases j <;> simp_all [generate_followup_topics, jsonIsArr]
  · intro topics hdec hval
    simp [generate_followup_topics, hcl, hdec, hval]
  · intro topics hdec hval
    refine ⟨by simp [generate_followup_topics, hcl, hdec, hval], ?_⟩
    intro hn
    simp [pyTake, hn, List.length_take]
  · intro topics hdec hval
    simp [generate_followup_topics, hcl, hdec, hval]

theorem c7_witness :
    (generate_followup_topics envC7ok "" (.str "t") 1).1 = .ok (pyTake 1 topicsC7) ∧
    (pyTake 1 topicsC7).length ≤ (1 : Int).toNat := by
  have h := c7_parse_robustness envC7ok "" (.str "t") 1 "RESP" rfl
  have h2 := h.2.2.2.1 topicsC7 rfl rfl
  exact ⟨h2.1, h2.2 (by decide)⟩

/-! ## C3 — the `depth <= 0` base case -/

/-- C3: for every `depth <= 0` and every accumulator, both copies of
`research_topic` return that accumulator unchanged with an empty event
trace — in particular no search call and no language-model call. -/
theorem c3_base_case :
    ∀ (env : Env) (q : Json) (d b : Int) (acc : ResearchResult), d ≤ 0 →
    research_topicV1 env q d b (some acc) = ⟨acc, [], false⟩ ∧
    research_topicV2 env q d b (some acc) = (acc, []) := by
  intro env q d b acc hd
  have h0 : d.toNat = 0 := Int.toNat_eq_zero.mpr hd
  exact ⟨by simp [research_topicV1, h0, goV1],
         by simp [research_topicV2, h0, goV2]⟩

theorem c3_witness :
    research_topicV1 envEmpty (.str "q") 0 2 (some ⟨["x"], ["u"]⟩) =
      ⟨⟨["x"], ["u"]⟩, [], false⟩ ∧
    research_topicV2 envEmpty (.str "q") 0 2 (some ⟨["x"], ["u"]⟩) =
      (⟨["x"], ["u"]⟩, []) :=
  c3_base_case envEmpty (.str "q") 0 2 ⟨["x"], ["u"]⟩ (by decide)

/-! ## C2 — duplicate-freeness of the returned accumulator -/

/-- C2 (counterexample): a `depth = 0` run returns normally and hands the
caller-supplied accumulator back unchanged, duplicates included — the final
deduplication is never reached. -/
theorem c2_counterexample :
    (research_topicV1 envEmpty (.str "q") 0 1 (some ⟨["a", "a"], []⟩)).res.learnings
      = ["a", "a"] ∧
    (research_topicV1 envEmpty (.str "q") 0 1 (some ⟨["a", "a"], []⟩)).raised = false ∧
    ¬ (["a", "a"] : List String).Nodup := ⟨rfl, rfl, by decide⟩

/-- C2 (amended): for every run of `research_topic` that returns normally
*and whose initial accumulator is duplicate-free* (in particular every run
with the default `existing_results=None`), the returned `learnings` and
`visited_urls` contain no duplicates; without that proviso a `depth <= 0`
call (or, in the `research/` copy, a call whose search yields no results)
returns the caller's accumulator as-is, duplicates included. -/
theorem c2_no_duplicates :
    ∀ (env : Env) (q : Json) (d b : Int) (acc? : Option ResearchResult),
    (acc?.getD ⟨[], []⟩).learnings.Nodup →
    (acc?.getD ⟨[], []⟩).visited_urls.Nodup →
    (((research_topicV1 env q d b acc?).raised = false →
       (research_topicV1 env q d b acc?).res.learnings.Nodup ∧
       (research_topicV1 env q d b acc?).res.visited_urls.Nodup) ∧
     ((research_topicV2 env q d b acc?).1.learnings.Nodup ∧
      (research_topicV2 env q d b acc?).1.visited_urls.Nodup)) := by
  intro env q d b acc? hL hU
  constructor
  · unfold research_topicV1
    cases hn : d.toNat with
    | zero => intro _; exact ⟨hL, hU⟩
    | succ n =>
      rw [goV1]
      dsimp only
      split
      · intro _; exact ⟨hL, hU⟩
      · split
        · split
          · intro h; exact absurd h (by simp)
          · split
            · intro h; exact absurd h (by simp)
            · intro _; exact ⟨List.nodup_dedup _, List.nodup_dedup _⟩
        · intro _; exact ⟨List.nodup_dedup _, List.nodup_dedup _⟩
  · unfold research_topicV2
    cases hn : d.toNat with
    | zero => exact ⟨hL, hU⟩
    | succ n =>
      rw [goV2]
      dsimp only
      split
      · exact ⟨hL, hU⟩
      · split
        · exact ⟨hL, hU⟩
        · exact ⟨List.nodup_dedup _, List.nodup_dedup _⟩

theorem c2_witness :
    ((research_topicV1 envEmpty (.str "q") 1 1 none).raised = false →
      (research_topicV1 envEmpty (.str "q") 1 1 none).res.learnings.Nodup ∧
      (research_topicV1 envEmpty (.str "q") 1 1 none).res.visited_urls.Nodup) ∧
    ((research_topicV2 envEmpty (.str "q") 1 1 none).1.learnings.Nodup ∧
     (research_topicV2 envEmpty (.str "q") 1 1 none).1.visited_urls.Nodup) :=
  c2_no_duplicates envEmpty (.str "q") 1 1 none (by decide) (by decide)

/-! ## C6 — the `simple_research` fallback -/

theorem occursIn_append_right (pat l2 : List Char) (h : occursIn pat l2 = true) :
    ∀ l1, occursIn pat (l1 ++ l2) = true := by
  intro l1
  induction l1 with
  | nil => simpa using h
  | cons c cs ih =>
    simp only [List.cons_append, occursIn, Bool.or_eq_true]
    exact Or.inr ih

theorem strContains_append_right (a b pat : String)
    (h : strContains b pat = true) : strContains (a ++ b) pat = true := by
  unfold strContains at *
  rw [String.data_append]
  exact occursIn_append_right _ _ h _

theorem gatherContent_all_empty :
    ∀ (rs : List SearchResult) (st : String × List String × List Event),
    (∀ r ∈ rs, r.markdown = "") →
    (rs.foldl gatherStep st).1 = st.1 ∧ (rs.foldl gatherStep st).2.1 = st.2.1 := by
  intro rs
  induction rs with
  | nil => intro st _; exact ⟨rfl, rfl⟩
  | cons r rest ih =>
    intro st h
    have hr : r.markdown = "" := h r (by simp)
    have step : gatherStep st r = (st.1, st.2.1, st.2.2 ++ [Event.source_processing r.title r.url]) := by
      simp [gatherStep, hr]
    rw [List.foldl_cons, step]
    exact ih _ (fun x hx => h x (List.mem_cons_of_mem _ hx))

/-- C6 (counterexample): in `src/research_agent.py`, when the search yields
no results `simple_research` returns the fixed string
"Couldn't find relevant information on this topic." — it makes no
language-model call and the returned document carries no live-web-search
disclaimer. -/
theorem c6_counterexample :
    (simple_researchV1 envEmpty (.str "q")).1 =
      .ok "Couldn\x27t find relevant information on this topic." ∧
    hasClaudeCall (simple_researchV1 envEmpty (.str "q")).2 = false ∧
    strContains "Couldn\x27t find relevant information on this topic."
      "live web search" = false :=
  ⟨rfl, rfl, by decide⟩

/-- C6 (amended): in `src/research/research_agent.py`, `simple_research`
falls back to a model-only answer carrying a disclaimer that contains the
substring "live web search" — both when the search yields no results and
when it yields only content-less results; in `src/research_agent.py` it
instead returns a fixed apology string without ever calling the model. -/
theorem c6_fallback :
    ∀ (env : Env) (q : Json) (resp : String),
    ((env.search q = [] → env.claude (.fallbackOverview q) = .ok resp →
       (simple_researchV2 env q).1 = .ok (resp ++ disclaimerApiLimits) ∧
       strContains (resp ++ disclaimerApiLimits) "live web search" = true) ∧
     (env.search q ≠ [] → (∀ r ∈ env.search q, r.markdown = "") →
       env.claude (.fallbackSummary q) = .ok resp →
       (simple_researchV2 env q).1 = .ok (resp ++ disclaimerNoSearch) ∧
       strContains (resp ++ disclaimerNoSearch) "live web search" = true) ∧
     (env.search q = [] →
       (simple_researchV1 env q).1 =
         .ok "Couldn\x27t find relevant information on this topic." ∧
       hasClaudeCall (simple_researchV1 env q).2 = false)) := by
  intro env q resp
  refine ⟨?_, ?_, ?_⟩
  · intro hs hcl
    refine ⟨by simp [simple_researchV2, hs, hcl], ?_⟩
    exact strContains_append_right _ _ _ (by decide)
  · intro hs hmd hcl
    have hne : (env.search q).isEmpty = false := by
      cases hsq : env.search q with
      | nil => exact absurd hsq hs
      | cons x xs => rfl
    have hg := gatherContent_all_empty (env.search q) ("", [], []) hmd
    refine ⟨?_, strContains_append_right _ _ _ (by decide)⟩
    simp only [simple_researchV2, hne, Bool.false_eq_true, if_false, gatherContent]
    simp [hg.1, hcl]
  · intro hs
    constructor
    · simp [simple_researchV1, hs, gatherContent]
    · simp [simple_researchV1, hs, gatherContent, hasClaudeCall]

theorem c6_witness :
    (simple_researchV2 envNoResults (.str "q")).1 = .ok ("RESP" ++ disclaimerApiLimits) ∧
    (simple_researchV2 envNoContent (.str "q")).1 = .ok ("RESP" ++ disclaimerNoSearch) ∧
    (simple_researchV1 envNoResults (.str "q")).1 =
      .ok "Couldn\x27t find relevant information on this topic." ∧
    hasClaudeCall (simple_researchV1 envNoResults (.str "q")).2 = false := by
  refine ⟨((c6_fallback envNoResults (.str "q") "RESP").1 rfl rfl).1,
          ((c6_fallback envNoContent (.str "q") "RESP").2.1 (by simp [envNoContent])
            (by intro r hr; simp [envNoContent] at hr; simp [hr]) rfl).1,
          ((c6_fallback envNoResults (.str "q") "RESP").2.2 rfl).1,
          ((c6_fallback envNoResults (.str "q") "RESP").2.2 rfl).2⟩

/-! ## C9 — per-item failure isolation in a result batch -/

theorem stepResultV1_fst (env : Env) (q : Json)
    (st : ResearchResult × List Event) (r : SearchResult) :
    (stepResultV1 env q st r).1 = (stepResultV1 env q (st.1, []) r).1 := by
  unfold stepResultV1
  split
  · rfl
  · dsimp only
    split <;> rfl

theorem foldl_stepResultV1_fst (env : Env) (q : Json) :
    ∀ (rs : List SearchResult) (st : ResearchResult × List Event),
    (List.foldl (stepResultV1 env q) st rs).1 =
      List.foldl (fun a r => (stepResultV1 env q (a, []) r).1) st.1 rs := by
  intro rs
  induction rs with
  | nil => intro st; rfl
  | cons r rest ih =>
    intro st
    rw [List.foldl_cons, List.foldl_cons, ih, stepResultV1_fst]

theorem stepResultV1_fst_ok (env : Env) (q : Json) (a : ResearchResult)
    (r : SearchResult) (txt : String) (hmd : ¬ r.markdown = "")
    (hcl : env.claude (.analysis q r.title r.markdown) = .ok txt) :
    (stepResultV1 env q (a, []) r).1 =
      ⟨a.learnings ++ extract_learnings txt, a.visited_urls ++ [r.url]⟩ := by
  simp [stepResultV1, hmd, hcl]

theorem stepResultV1_fst_err (env : Env) (q : Json) (a : ResearchResult)
    (r : SearchResult) (hmd : ¬ r.markdown = "")
    (hcl : env.claude (.analysis q r.title r.markdown) = .error ()) :
    (stepResultV1 env q (a, []) r).1 =
      ⟨a.learnings, a.visited_urls ++ [r.url]⟩ := by
  simp [stepResultV1, hmd, hcl]

theorem stepResultV2_fst (env : Env) (q : Json)
    (st : ResearchResult × List Event) (r : SearchResult) :
    (stepResultV2 env q st r).1 = (stepResultV2 env q (st.1, []) r).1 := by
  unfold stepResultV2
  split
  · rfl
  · dsimp only
    split
    · rfl
    · split <;> rfl

theorem foldl_stepResultV2_fst (env : Env) (q : Json) :
    ∀ (rs : List SearchResult) (st : ResearchResult × List Event),
    (List.foldl (stepResultV2 env q) st rs).1 =
      List.foldl (fun a r => (stepResultV2 env q (a, []) r).1) st.1 rs := by
  intro rs
  induction rs with
  | nil => intro st; rfl
  | cons r rest ih =>
    intro st
    rw [List.foldl_cons, List.foldl_cons, ih, stepResultV2_fst]

theorem stepResultV2_fst_ok (env : Env) (q : Json) (a : ResearchResult)
    (r : SearchResult) (txt : String) (hmd : ¬ r.markdown = "")
    (hcl : env.claude (.analysis q r.title (pyTakeStr 5000 r.markdown)) = .ok txt) :
    (stepResultV2 env q (a, []) r).1 =
      ⟨a.learnings ++ extract_learnings txt, a.visited_urls ++ [r.url]⟩ := by
  unfold stepResultV2
  rw [if_neg hmd]
  dsimp only
  rw [hcl]
  dsimp only
  split
  · next h => simp [h]
  · rfl

theorem stepResultV2_fst_err (env : Env) (q : Json) (a : ResearchResult)
    (r : SearchResult) (hmd : ¬ r.markdown = "")
    (hcl : env.claude (.analysis q r.title (pyTakeStr 5000 r.markdown)) = .error ()) :
    (stepResultV2 env q (a, []) r).1 =
      ⟨a.learnings, a.visited_urls ++ [r.url]⟩ := by
  simp [stepResultV2, hmd, hcl]

/-- C9: in a batch of three search results where analysing the second one
raises, the failure is caught per item: both copies still return with the
learnings of the first and third sources and their URLs present in the
accumulator (stated for a `depth = 1` call, where the batch is the whole
work of the invocation). -/
theorem c9_partial_failure :
    ∀ (env : Env) (q : Json) (b : Int) (acc : ResearchResult)
      (r1 r2 r3 : SearchResult) (a1 a3 a1v a3v : String),
    env.search q = [r1, r2, r3] →
    ¬ r1.markdown = "" → ¬ r2.markdown = "" → ¬ r3.markdown = "" →
    env.claude (.analysis q r1.title r1.markdown) = .ok a1 →
    env.claude (.analysis q r2.title r2.markdown) = .error () →
    env.claude (.analysis q r3.title r3.markdown) = .ok a3 →
    env.claude (.analysis q r1.title (pyTakeStr 5000 r1.markdown)) = .ok a1v →
    env.claude (.analysis q r2.title (pyTakeStr 5000 r2.markdown)) = .error () →
    env.claude (.analysis q r3.title (pyTakeStr 5000 r3.markdown)) = .ok a3v →
    (((research_topicV1 env q 1 b (some acc)).raised = false) ∧
     (∀ l ∈ extract_learnings a1,
        l ∈ (research_topicV1 env q 1 b (some acc)).res.learnings) ∧
     (∀ l ∈ extract_learnings a3,
        l ∈ (research_topicV1 env q 1 b (some acc)).res.learnings) ∧
     r1.url ∈ (research_topicV1 env q 1 b (some acc)).res.visited_urls ∧
     r3.url ∈ (research_topicV1 env q 1 b (some acc)).res.visited_urls) ∧
    ((∀ l ∈ extract_learnings a1v,
        l ∈ (research_topicV2 env q 1 b (some acc)).1.learnings) ∧
     (∀ l ∈ extract_learnings a3v,
        l ∈ (research_topicV2 env q 1 b (some acc)).1.learnings) ∧
     r1.url ∈ (research_topicV2 env q 1 b (some acc)).1.visited_urls ∧
     r3.url ∈ (research_topicV2 env q 1 b (some acc)).1.visited_urls) := by
  intro env q b acc r1 r2 r3 a1 a3 a1v a3v hs h1 h2 h3 hc1 hc2 hc3 hv1 hv2 hv3
  have hpr1 : (List.foldl (stepResultV1 env q) (acc, []) [r1, r2, r3]).1 =
      ⟨acc.learnings ++ extract_learnings a1 ++ extract_learnings a3,
       acc.visited_urls ++ [r1.url] ++ [r2.url] ++ [r3.url]⟩ := by
    rw [foldl_stepResultV1_fst]
    simp only [List.foldl_cons, List.foldl_nil]
    rw [stepResultV1_fst_ok env q acc r1 a1 h1 hc1,
        stepResultV1_fst_err env q _ r2 h2 hc2,
        stepResultV1_fst_ok env q _ r3 a3 h3 hc3]
  have hpr2 : (List.foldl (stepResultV2 env q) (acc, []) [r1, r2, r3]).1 =
      ⟨acc.learnings ++ extract_learnings a1v ++ extract_learnings a3v,
       acc.visited_urls ++ [r1.url] ++ [r2.url] ++ [r3.url]⟩ := by
    rw [foldl_stepResultV2_fst]
    simp only [List.foldl_cons, List.foldl_nil]
    rw [stepResultV2_fst_ok env q acc r1 a1v h1 hv1,
        stepResultV2_fst_err env q _ r2 h2 hv2,
        stepResultV2_fst_ok env q _ r3 a3v h3 hv3]
  have hres1 : (research_topicV1 env q 1 b (some acc)).res =
      ⟨(acc.learnings ++ extract_learnings a1 ++ extract_learnings a3).dedup,
       (acc.visited_urls ++ [r1.url] ++ [r2.url] ++ [r3.url]).dedup⟩ := by
    show (goV1 env 1 q 1 b acc).res = _
    rw [goV1, if_neg (show ¬ (1 : Int) ≤ 0 by decide)]
    dsimp only
    rw [if_neg (show ¬ (1 : Int) < 1 by decide)]
    dsimp only
    rw [hs, hpr1]
  have hrai1 : (research_topicV1 env q 1 b (some acc)).raised = false := by
    show (goV1 env 1 q 1 b acc).raised = false
    rw [goV1, if_neg (show ¬ (1 : Int) ≤ 0 by decide)]
    dsimp only
    rw [if_neg (show ¬ (1 : Int) < 1 by decide)]
  have hres2 : (research_topicV2 env q 1 b (some acc)).1 =
      ⟨(acc.learnings ++ extract_learnings a1v ++ extract_learnings a3v).dedup,
       (acc.visited_urls ++ [r1.url] ++ [r2.url] ++ [r3.url]).dedup⟩ := by
    show (goV2 env 1 q 1 b acc).1 = _
    rw [goV2, if_neg (show ¬ (1 : Int) ≤ 0 by decide)]
    dsimp only
    rw [hs]
    simp only [List.isEmpty_cons, Bool.false_eq_true, if_false]
    rw [if_neg (show ¬ ((1 : Int) < 1 ∧
        (List.foldl (stepResultV2 env q) (acc, []) [r1, r2, r3]).1.learnings ≠ []) from
        fun h => absurd h.1 (by decide))]
    dsimp only
    rw [hpr2]
  refine ⟨⟨hrai1, ?_, ?_, ?_, ?_⟩, ?_, ?_, ?_, ?_⟩
  · intro l hl
    rw [hres1]
    simp [List.mem_dedup, hl]
  · intro l hl
    rw [hres1]
    simp [List.mem_dedup, hl]
  · rw [hres1]
    simp [List.mem_dedup]
  · rw [hres1]
    simp [List.mem_dedup]
  · intro l hl
    rw [hres2]
    simp [List.mem_dedup, hl]
  · intro l hl
    rw [hres2]
    simp [List.mem_dedup, hl]
  · rw [hres2]
    simp [List.mem_dedup]
  · rw [hres2]
    simp [List.mem_dedup]

/-! ## C10 — `call_claude` mutates an existing context once per attempt -/

theorem callClaudeGo_success (api : Nat → Option String) (prompt : String)
    (id : String) (hid : ¬ id = "") :
    ∀ (k attempt fuel : Nat) (ctxs : Ctxs) (ms : List Msg) (r : String),
    ctxs id = some ms → k < fuel →
    (∀ i, i < k → api (attempt + i) = none) → api (attempt + k) = some r →
    (callClaudeGo api prompt (some id) attempt fuel ctxs).1 = .ok r ∧
    (callClaudeGo api prompt (some id) attempt fuel ctxs).2 id =
      some (ms ++ List.replicate (k+1) (⟨"user", prompt⟩ : Msg) ++ [⟨"assistant", r⟩]) := by
  intro k
  induction k with
  | zero =>
    intro attempt fuel ctxs ms r hctx hk hfail hsucc
    cases fuel with
    | zero => omega
    | succ f =>
      have hstep : attemptStep api prompt (some id) attempt ctxs =
          .inl (.ok r, (ctxs.set id (ms ++ [⟨"user", prompt⟩])).set id
            ((ms ++ [⟨"user", prompt⟩]) ++ [⟨"assistant", r⟩])) := by
        simp [attemptStep, findCtx, hid, hctx,
          show api attempt = some r by simpa using hsucc]
      rw [callClaudeGo, hstep]
      dsimp only
      exact ⟨rfl, by simp [Ctxs.set]⟩
  | succ k ih =>
    intro attempt fuel ctxs ms r hctx hk hfail hsucc
    cases fuel with
    | zero => omega
    | succ f =>
      have hstep : attemptStep api prompt (some id) attempt ctxs =
          .inr (ctxs.set id (ms ++ [⟨"user", prompt⟩])) := by
        simp [attemptStep, findCtx, hid, hctx,
          show api attempt = none by simpa using hfail 0 (by omega)]
      rw [callClaudeGo, hstep]
      dsimp only
      cases f with
      | zero => omega
      | succ g =>
        rw [if_neg (show ¬ (g + 1 = 0) by omega)]
        have hr := ih (attempt+1) (g+1)
          (Ctxs.set ctxs id (ms ++ [⟨"user", prompt⟩])) (ms ++ [⟨"user", prompt⟩]) r
          (by simp [Ctxs.set]) (by omega)
          (fun i hi => by
            have := hfail (i+1) (by omega)
            rw [show attempt + 1 + i = attempt + (i + 1) by omega]
            exact this)
          (by rw [show attempt + 1 + k = attempt + (k + 1) by omega]; exact hsucc)
        refine ⟨hr.1, ?_⟩
        rw [hr.2]
        simp [List.replicate_succ, List.append_assoc]

theorem callClaudeGo_allfail (api : Nat → Option String) (prompt : String)
    (id : String) (hid : ¬ id = "") :
    ∀ (fuel attempt : Nat) (ctxs : Ctxs) (ms : List Msg),
    ctxs id = some ms → 0 < fuel → (∀ i, i < fuel → api (attempt + i) = none) →
    (callClaudeGo api prompt (some id) attempt fuel ctxs).1 = .error () ∧
    (callClaudeGo api prompt (some id) attempt fuel ctxs).2 id =
      some (ms ++ List.replicate fuel (⟨"user", prompt⟩ : Msg)) := by
  intro fuel
  induction fuel with
  | zero => intro attempt ctxs ms _ h; omega
  | succ f ih =>
    intro attempt ctxs ms hctx _ hfail
    have hstep : attemptStep api prompt (some id) attempt ctxs =
        .inr (ctxs.set id (ms ++ [⟨"user", prompt⟩])) := by
      simp [attemptStep, findCtx, hid, hctx,
        show api attempt = none by simpa using hfail 0 (by omega)]
    rw [callClaudeGo, hstep]
    dsimp only
    cases f with
    | zero => exact ⟨rfl, by simp [Ctxs.set]⟩
    | succ g =>
      rw [if_neg (show ¬ (g + 1 = 0) by omega)]
      have hr := ih (attempt+1)
        (Ctxs.set ctxs id (ms ++ [⟨"user", prompt⟩])) (ms ++ [⟨"user", prompt⟩])
        (by simp [Ctxs.set]) (by omega)
        (fun i hi => by
          have := hfail (i+1) (by omega)
          rw [show attempt + 1 + i = attempt + (i + 1) by omega]
          exact this)
      refine ⟨hr.1, ?_⟩
      rw [hr.2]
      simp [List.replicate_succ, List.append_assoc]

/-- C10: when `call_claude` is given a `context_id` naming an existing
context, the user prompt is appended to that context at the start of every
retry attempt and never rolled back: if the API fails `n` times and then
succeeds, the stored history gains `n+1` copies of the user turn (plus the
assistant reply); if every one of the `max_retries` attempts fails, the
call raises and the history still gained `max_retries` copies — the
context is mutated even when the call ultimately raises. -/
theorem c10_context_mutation :
    ∀ (api : Nat → Option String) (maxR : Nat) (ctxs : Ctxs)
      (prompt id : String) (ms : List Msg),
    ¬ id = "" → ctxs id = some ms →
    ((∀ (n : Nat) (r : String), n < maxR → (∀ i, i < n → api i = none) →
        api n = some r →
        (call_claude api maxR ctxs prompt (some id)).1 = .ok r ∧
        (call_claude api maxR ctxs prompt (some id)).2 id =
          some (ms ++ List.replicate (n+1) (⟨"user", prompt⟩ : Msg) ++
            [⟨"assistant", r⟩])) ∧
     (0 < maxR → (∀ i, i < maxR → api i = none) →
        (call_claude api maxR ctxs prompt (some id)).1 = .error () ∧
        (call_claude api maxR ctxs prompt (some id)).2 id =
          some (ms ++ List.replicate maxR (⟨"user", prompt⟩ : Msg)))) := by
  intro api maxR ctxs prompt id ms hid hctx
  constructor
  · intro n r hn hfail hsucc
    exact callClaudeGo_success api prompt id hid n 0 maxR ctxs ms r hctx hn
      (fun i hi => by simpa using hfail i hi) (by simpa using hsucc)
  · intro hpos hfail
    exact callClaudeGo_allfail api prompt id hid maxR 0 ctxs ms hctx hpos
      (fun i hi => by simpa using hfail i hi)

def apiC10 : Nat → Option String := fun i => if i < 2 then none else some "R"

def apiFailC10 : Nat → Option String := fun _ => none

def ctxsC10 : Ctxs := fun x => if x = "c" then some [⟨"user", "hi"⟩] else none

theorem c10_witness :
    (call_claude apiC10 5 ctxsC10 "p" (some "c")).1 = .ok "R" ∧
    (call_claude apiC10 5 ctxsC10 "p" (some "c")).2 "c" =
      some ([⟨"user", "hi"⟩] ++ List.replicate 3 (⟨"user", "p"⟩ : Msg) ++
        [⟨"assistant", "R"⟩]) ∧
    (call_claude apiFailC10 3 ctxsC10 "p" (some "c")).1 = .error () ∧
    (call_claude apiFailC10 3 ctxsC10 "p" (some "c")).2 "c" =
      some ([⟨"user", "hi"⟩] ++ List.replicate 3 (⟨"user", "p"⟩ : Msg)) := by
  have h1 := (c10_context_mutation apiC10 5 ctxsC10 "p" "c" [⟨"user", "hi"⟩]
      (by decide) rfl).1 2 "R" (by omega)
      (fun i hi => by simp [apiC10, hi]) (by simp [apiC10])
  have h2 := (c10_context_mutation apiFailC10 3 ctxsC10 "p" "c" [⟨"user", "hi"⟩]
      (by decide) rfl).2 (by omega) (fun i _ => rfl)
  exact ⟨h1.1, h1.2, h2.1, h2.2⟩

/-! ## C5 — when the Follow-up Topic Generator is invoked -/

/-- Events that per-result processing can emit. -/
def isProcEvent : Event → Bool
  | .source_processing _ _ => true
  | .claude_call (.analysis _ _ _) => true
  | .new_learning _ => true
  | _ => false

/-- A language-model call carrying the follow-up-generation prompt —
the observable of one `generate_followup_topics` invocation. -/
def isFollowupGenCall : Event → Bool
  | .claude_call (.followup _ _ _) => true
  | _ => false

/-- `generate_followup_topics` emits exactly one claude call, whatever the
outcome. -/
theorem gen_events (env : Env) (c : String) (q : Json) (n : Int) :
    (generate_followup_topics env c q n).2 = [Event.claude_call (.followup c q n)] := by
  unfold generate_followup_topics
  dsimp only
  split
  · rfl
  · split
    · rfl
    · split
      · split <;> rfl
      · rfl

theorem procV1_events (env : Env) (q : Json) :
    ∀ (rs : List SearchResult) (st : ResearchResult × List Event),
    (∀ e ∈ st.2, isProcEvent e = true) →
    ∀ e ∈ (List.foldl (stepResultV1 env q) st rs).2, isProcEvent e = true := by
  intro rs
  induction rs with
  | nil => intro st hst; exact hst
  | cons r rest ih =>
    intro st hst
    rw [List.foldl_cons]
    apply ih
    intro e he
    unfold stepResultV1 at he
    split at he
    · exact hst e he
    · dsimp only at he
      split at he
      · dsimp only at he
        simp only [List.mem_append, List.mem_singleton] at he
        rcases he with (he | he) | he
        · exact hst e he
        · rw [he]; rfl
        · rw [he]; rfl
      · dsimp only at he
        simp only [List.mem_append, List.mem_singleton, List.mem_map] at he
        rcases he with ((he | he) | he) | ⟨t, _, he⟩
        · exact hst e he
        · rw [he]; rfl
        · rw [he]; rfl
        · rw [← he]; rfl

theorem procV2_events (env : Env) (q : Json) :
    ∀ (rs : List SearchResult) (st : ResearchResult × List Event),
    (∀ e ∈ st.2, isProcEvent e = true) →
    ∀ e ∈ (List.foldl (stepResultV2 env q) st rs).2, isProcEvent e = true := by
  intro rs
  induction rs with
  | nil => intro st hst; exact hst
  | cons r rest ih =>
    intro st hst
    rw [List.foldl_cons]
    apply ih
    intro e he
    unfold stepResultV2 at he
    split at he
    · dsimp only at he
      simp only [List.mem_append, List.mem_singleton] at he
      rcases he with he | he
      · exact hst e he
      · rw [he]; rfl
    · dsimp only at he
      split at he
      · dsimp only at he
        simp only [List.mem_append, List.mem_singleton] at he
        rcases he with (he | he) | he
        · exact hst e he
        · rw [he]; rfl
        · rw [he]; rfl
      · split at he
        · dsimp only at he
          simp only [List.mem_append, List.mem_singleton] at he
          rcases he with (he | he) | he
          · exact hst e he
          · rw [he]; rfl
          · rw [he]; rfl
        · dsimp only at he
          simp only [List.mem_append, List.mem_singleton, List.mem_map] at he
          rcases he with ((he | he) | he) | ⟨t, _, he⟩
          · exact hst e he
          · rw [he]; rfl
          · rw [he]; rfl
          · rw [← he]; rfl

theorem proc_not_followup (e : Event) (h : isProcEvent e = true) :
    isFollowupGenCall e = false := by
  cases e with
  | claude_call p => cases p <;> simp_all [isProcEvent, isFollowupGenCall]
  | _ => rfl

/-- C5 (counterexample): in `src/research_agent.py`, a `depth = 2` branch
that accumulated no learnings at all (the search found nothing) still
invokes the Follow-up Topic Generator — the trace contains its model call
with the empty learnings concatenation as context. -/
theorem c5_counterexample :
    (research_topicV1 envC5x (.str "q") 2 2 none).res.learnings = [] ∧
    Event.claude_call (.followup "" (.str "q") 2) ∈
      (research_topicV1 envC5x (.str "q") 2 2 none).trace :=
  ⟨rfl, List.Mem.tail _ (List.Mem.tail _ (List.Mem.head _))⟩

/-- C5 (amended): in `src/research/research_agent.py`, the Follow-up Topic
Generator is invoked exactly when `depth > 1` and at least one learning is
in the shared accumulator after the batch was processed (given the search
returned a nonempty batch, which its `fire_crawl` always does); in
`src/research_agent.py` the generator is invoked whenever `depth > 1`,
even when no learning was accumulated. -/
theorem c5_followup_gate :
    ∀ (env : Env) (q : Json) (d b : Int) (acc? : Option ResearchResult),
    ((env.search q ≠ [] →
       ((∃ e ∈ (research_topicV2 env q d b acc?).2, isFollowupGenCall e = true) ↔
        (1 < d ∧
          (List.foldl (stepResultV2 env q) (acc?.getD ⟨[], []⟩, [])
            (env.search q)).1.learnings ≠ []))) ∧
     (1 < d →
       ∃ e ∈ (research_topicV1 env q d b acc?).trace, isFollowupGenCall e = true)) := by
  intro env q d b acc?
  constructor
  · intro hne
    unfold research_topicV2
    by_cases hd : d ≤ 0
    · have h0 : d.toNat = 0 := Int.toNat_eq_zero.mpr hd
      rw [h0, goV2]
      constructor
      · rintro ⟨e, he, _⟩
        simp at he
      · rintro ⟨hd2, _⟩
        omega
    · obtain ⟨n, hn⟩ : ∃ n, d.toNat = n + 1 := ⟨d.toNat - 1, by omega⟩
      rw [hn, goV2, if_neg hd]
      dsimp only
      have hemp : (env.search q).isEmpty = false := by
        cases hsq : env.search q with
        | nil => exact absurd hsq hne
        | cons x xs => rfl
      rw [hemp]
      simp only [Bool.false_eq_true, if_false]
      by_cases hg : (1 < d ∧
          (List.foldl (stepResultV2 env q) (acc?.getD ⟨[], []⟩, [])
            (env.search q)).1.learnings ≠ [])
      · rw [if_pos hg]
        refine ⟨fun _ => hg, fun _ => ?_⟩
        split
        · rw [gen_events]
          refine ⟨Event.claude_call (.followup
            (joinNl (List.foldl (stepResultV2 env q)
              (acc?.getD ⟨[], []⟩, []) (env.search q)).1.learnings) q b), ?_, rfl⟩
          simp
        · split
          · rw [gen_events]
            refine ⟨Event.claude_call (.followup
            (joinNl (List.foldl (stepResultV2 env q)
              (acc?.getD ⟨[], []⟩, []) (env.search q)).1.learnings) q b), ?_, rfl⟩
            simp
          · rw [gen_events]
            refine ⟨Event.claude_call (.followup
            (joinNl (List.foldl (stepResultV2 env q)
              (acc?.getD ⟨[], []⟩, []) (env.search q)).1.learnings) q b), ?_, rfl⟩
            simp
      · rw [if_neg hg]
        constructor
        · rintro ⟨e, he, hfe⟩
          dsimp only at he
          simp only [List.append_nil, List.mem_append, List.mem_cons,
            List.mem_singleton, List.not_mem_nil, or_false] at he
          rcases he with (he | he) | he
          · rw [he] at hfe; cases hfe
          · rw [he] at hfe; cases hfe
          · have hp := procV2_events env q (env.search q)
              (acc?.getD ⟨[], []⟩, []) (by intro e' he'; simp at he') e he
            rw [proc_not_followup e hp] at hfe
            cases hfe
        · intro hg2
          exact absurd hg2 hg
  · intro hd2
    unfold research_topicV1
    obtain ⟨n, hn⟩ : ∃ n, d.toNat = n + 1 := ⟨d.toNat - 1, by omega⟩
    rw [hn, goV1, if_neg (show ¬ d ≤ 0 by omega)]
    dsimp only
    rw [if_pos hd2]
    split
    · rw [gen_events]
      refine ⟨Event.claude_call (.followup
        (joinNl (List.foldl (stepResultV1 env q)
          (acc?.getD ⟨[], []⟩, []) (env.search q)).1.learnings) q b), ?_, rfl⟩
      simp
    · split
      · rw [gen_events]
        refine ⟨Event.claude_call (.followup
        (joinNl (List.foldl (stepResultV1 env q)
          (acc?.getD ⟨[], []⟩, []) (env.search q)).1.learnings) q b), ?_, rfl⟩
        simp
      · rw [gen_events]
        refine ⟨Event.claude_call (.followup
        (joinNl (List.foldl (stepResultV1 env q)
          (acc?.getD ⟨[], []⟩, []) (env.search q)).1.learnings) q b), ?_, rfl⟩
        simp

theorem c5_witness :
    ((∃ e ∈ (research_topicV2 envC5w (.str "q") 2 2 none).2,
        isFollowupGenCall e = true) ↔
      (1 < (2 : Int) ∧
        (List.foldl (stepResultV2 envC5w (.str "q")) (⟨[], []⟩, [])
          (envC5w.search (.str "q"))).1.learnings ≠ [])) ∧
    (∃ e ∈ (research_topicV1 envC5w (.str "q") 2 2 none).trace,
      isFollowupGenCall e = true) :=
  ⟨(c5_followup_gate envC5w (.str "q") 2 2 none).1 (by simp [envC5w]),
   (c5_followup_gate envC5w (.str "q") 2 2 none).2 (by decide)⟩

/-! ## C1 — depth/breadth budget of the recursion -/

theorem maxCollapse (x k : Int) (hk : 0 ≤ k) :
    max 1 (max 1 x - k) = max 1 (x - k) := by
  rcases le_total x 1 with h | h
  · rw [max_eq_left h, max_eq_left (show x - k ≤ 1 by omega),
      max_eq_left (show 1 - k ≤ 1 by omega)]
  · rw [max_eq_right h]

theorem kidsInvV1 (recurse : Json → ResearchResult → RunOut)
    (P : Json → Int → Int → Prop)
    (hrec : ∀ tq a q' d' b',
      Event.research_start q' d' b' ∈ (recurse tq a).trace → P q' d' b') :
    ∀ (topics : List Json) (st : RunOut),
    (∀ q' d' b', Event.research_start q' d' b' ∈ st.trace → P q' d' b') →
    ∀ q' d' b',
      Event.research_start q' d' b' ∈ (topics.foldl (stepKidV1 recurse) st).trace →
      P q' d' b' := by
  intro topics
  induction topics with
  | nil => intro st hst; exact hst
  | cons t rest ih =>
    intro st hst
    rw [List.foldl_cons]
    apply ih
    intro q' d' b' hmem
    unfold stepKidV1 at hmem
    split at hmem
    · exact hst q' d' b' hmem
    · split at hmem
      · split at hmem
        · dsimp only at hmem
          simp only [List.mem_append, List.mem_singleton] at hmem
          rcases hmem with (hmem | hmem) | hmem
          · exact hst q' d' b' hmem
          · cases hmem
          · exact hrec _ _ q' d' b' hmem
        · exact hst q' d' b' hmem
      · exact hst q' d' b' hmem

theorem kidsInvV2
    (recurse : Json → ResearchResult → ResearchResult × List Event)
    (P : Json → Int → Int → Prop)
    (hrec : ∀ tq a q' d' b',
      Event.research_start q' d' b' ∈ (recurse tq a).2 → P q' d' b') :
    ∀ (qs : List Json) (st : ResearchResult × List Event),
    (∀ q' d' b', Event.research_start q' d' b' ∈ st.2 → P q' d' b') →
    ∀ q' d' b',
      Event.research_start q' d' b' ∈ (qs.foldl (stepKidV2 recurse) st).2 →
      P q' d' b' := by
  intro qs
  induction qs with
  | nil => intro st hst; exact hst
  | cons t rest ih =>
    intro st hst
    rw [List.foldl_cons]
    apply ih
    intro q' d' b' hmem
    unfold stepKidV2 at hmem
    dsimp only at hmem
    simp only [List.mem_append] at hmem
    rcases hmem with hmem | hmem
    · exact hst q' d' b' hmem
    · exact hrec _ _ q' d' b' hmem

/-- The events carried by a `collectQueriesV2` outcome, on either side. -/
def collectEvs (x : Except (List Event) (List Json × List Event)) : List Event :=
  match x with
  | .ok qse => qse.2
  | .error evs => evs

theorem collectV2_events : ∀ (topics : List Json) (e : Event),
    e ∈ collectEvs (collectQueriesV2 topics) → ∃ tq, e = Event.followup_topic tq := by
  intro topics
  induction topics with
  | nil => intro e he; simp [collectQueriesV2, collectEvs] at he
  | cons t rest ih =>
    intro e he
    cases t with
    | obj fs =>
      unfold collectQueriesV2 at he
      dsimp only at he
      cases hl : fs.lookup "query" with
      | none =>
        rw [hl] at he
        exact ih e he
      | some tq =>
        rw [hl] at he
        dsimp only at he
        by_cases hf : pyFalsy tq = true
        · rw [if_pos hf] at he
          exact ih e he
        · rw [if_neg hf] at he
          cases hc : collectQueriesV2 rest with
          | ok qse =>
            rw [hc] at he
            dsimp only [collectEvs] at he
            rcases List.mem_cons.mp he with h | h
            · exact ⟨tq, h⟩
            · exact ih e (by rw [hc]; exact h)
          | error evs =>
            rw [hc] at he
            dsimp only [collectEvs] at he
            rcases List.mem_cons.mp he with h | h
            · exact ⟨tq, h⟩
            · exact ih e (by rw [hc]; exact h)
    | null => simp [collectQueriesV2, collectEvs] at he
    | bool bb => simp [collectQueriesV2, collectEvs] at he
    | num nn => simp [collectQueriesV2, collectEvs] at he
    | str ss => simp [collectQueriesV2, collectEvs] at he
    | arr xs => simp [collectQueriesV2, collectEvs] at he

theorem traceInvV1 :
    ∀ (fuel : Nat) (env : Env) (q : Json) (d b : Int) (acc : ResearchResult),
    fuel = d.toNat → 1 ≤ b →
    ∀ q' d' b', Event.research_start q' d' b' ∈ (goV1 env fuel q d b acc).trace →
      1 ≤ d' ∧ d' ≤ d ∧ b' = max 1 (b - (d - d')) := by
  intro fuel
  induction fuel with
  | zero =>
    intro env q d b acc hf hb q' d' b' hmem
    simp [goV1] at hmem
  | succ n ih =>
    intro env q d b acc hf hb q' d' b' hmem
    have hd1 : (1 : Int) ≤ d := by omega
    rw [goV1, if_neg (show ¬ d ≤ 0 by omega)] at hmem
    dsimp only at hmem
    have hroot : Event.research_start q' d' b' = Event.research_start q d b →
        1 ≤ d' ∧ d' ≤ d ∧ b' = max 1 (b - (d - d')) := by
      intro h
      injection h with h1 h2 h3
      subst h1; subst h2; subst h3
      refine ⟨by omega, by omega, ?_⟩
      rw [sub_self, sub_zero]
      exact (max_eq_right hb).symm
    have hprocne : Event.research_start q' d' b' ∉
        (List.foldl (stepResultV1 env q) (acc, []) (env.search q)).2 := by
      intro hin
      have hp := procV1_events env q (env.search q) (acc, [])
        (by intro e he; simp at he) _ hin
      simp [isProcEvent] at hp
    by_cases hdd : 1 < d
    · rw [if_pos hdd] at hmem
      split at hmem
      · rw [gen_events] at hmem
        simp only [List.mem_append, List.mem_cons, List.mem_singleton,
          List.not_mem_nil, or_false] at hmem
        rcases hmem with ((h | h) | h) | h
        · exact hroot h
        · simp at h
        · exact absurd h hprocne
        · simp at h
      · split at hmem
        all_goals
          rw [gen_events] at hmem
          simp only [List.mem_append, List.mem_cons, List.mem_singleton,
            List.not_mem_nil, or_false] at hmem
          rcases hmem with (((h | h) | h) | h) | h
          case _ => exact hroot h
          case _ => simp at h
          case _ => exact absurd h hprocne
          case _ => simp at h
          case _ =>
            have hk := kidsInvV1 (fun tq a => goV1 env n tq (d-1) (max 1 (b-1)) a)
              (fun q2 d2 b2 => 1 ≤ d2 ∧ d2 ≤ d - 1 ∧
                b2 = max 1 (max 1 (b-1) - ((d-1) - d2)))
              (fun tq a q2 d2 b2 hmm =>
                ih env tq (d-1) (max 1 (b-1)) a (by omega) (le_max_left 1 _) q2 d2 b2 hmm)
              _ _ (fun q2 d2 b2 hmm => absurd hmm (by simp)) q' d' b' h
            obtain ⟨hk1, hk2, hk3⟩ := hk
            refine ⟨hk1, by omega, ?_⟩
            rw [hk3, maxCollapse (b-1) ((d-1) - d') (by omega)]
            congr 1
            ring
    · rw [if_neg hdd] at hmem
      dsimp only at hmem
      simp only [List.mem_append, List.mem_cons, List.mem_singleton,
        List.not_mem_nil, or_false] at hmem
      rcases hmem with (h | h) | h
      · exact hroot h
      · simp at h
      · exact absurd h hprocne

theorem traceInvV2 :
    ∀ (fuel : Nat) (env : Env) (q : Json) (d b : Int) (acc : ResearchResult),
    fuel = d.toNat → 1 ≤ b →
    ∀ q' d' b', Event.research_start q' d' b' ∈ (goV2 env fuel q d b acc).2 →
      1 ≤ d' ∧ d' ≤ d ∧ b' = max 1 (b - (d - d')) := by
  intro fuel
  induction fuel with
  | zero =>
    intro env q d b acc hf hb q' d' b' hmem
    simp [goV2] at hmem
  | succ n ih =>
    intro env q d b acc hf hb q' d' b' hmem
    have hd1 : (1 : Int) ≤ d := by omega
    rw [goV2, if_neg (show ¬ d ≤ 0 by omega)] at hmem
    dsimp only at hmem
    have hroot : Event.research_start q' d' b' = Event.research_start q d b →
        1 ≤ d' ∧ d' ≤ d ∧ b' = max 1 (b - (d - d')) := by
      intro h
      injection h with h1 h2 h3
      subst h1; subst h2; subst h3
      refine ⟨by omega, by omega, ?_⟩
      rw [sub_self, sub_zero]
      exact (max_eq_right hb).symm
    have hprocne : Event.research_start q' d' b' ∉
        (List.foldl (stepResultV2 env q) (acc, []) (env.search q)).2 := by
      intro hin
      have hp := procV2_events env q (env.search q) (acc, [])
        (by intro e he; simp at he) _ hin
      simp [isProcEvent] at hp
    by_cases hemp : (env.search q).isEmpty = true
    · rw [if_pos hemp] at hmem
      simp only [List.mem_cons, List.not_mem_nil, or_false] at hmem
      rcases hmem with h | h
      · exact hroot h
      · simp at h
    · rw [if_neg hemp] at hmem
      dsimp only at hmem
      by_cases hg : (1 < d ∧
          (List.foldl (stepResultV2 env q) (acc, []) (env.search q)).1.learnings ≠ [])
      · rw [if_pos hg] at hmem
        cases hgf : (generate_followup_topics env
            (joinNl (List.foldl (stepResultV2 env q) (acc, [])
              (env.search q)).1.learnings) q b).1 with
        | error e0 =>
          rw [hgf] at hmem
          dsimp only at hmem
          rw [gen_events] at hmem
          simp only [List.mem_append, List.mem_cons, List.mem_singleton,
            List.not_mem_nil, or_false] at hmem
          rcases hmem with ((h | h) | h) | h
          · exact hroot h
          · simp at h
          · exact absurd h hprocne
          · simp at h
        | ok topics =>
          rw [hgf] at hmem
          dsimp only at hmem
          cases hc : collectQueriesV2 topics with
          | error evC =>
            rw [hc] at hmem
            dsimp only at hmem
            rw [gen_events] at hmem
            simp only [List.mem_append, List.mem_cons, List.mem_singleton,
              List.not_mem_nil, or_false] at hmem
            rcases hmem with ((h | h) | h) | (h | h)
            · exact hroot h
            · simp at h
            · exact absurd h hprocne
            · simp at h
            · obtain ⟨tq, htq⟩ := collectV2_events topics _ (by rw [hc]; exact h)
              cases htq
          | ok qse =>
            rw [hc] at hmem
            dsimp only at hmem
            rw [gen_events] at hmem
            simp only [List.mem_append, List.mem_cons, List.mem_singleton,
              List.not_mem_nil, or_false] at hmem
            rcases hmem with ((h | h) | h) | ((h | h) | h)
            · exact hroot h
            · simp at h
            · exact absurd h hprocne
            · simp at h
            · obtain ⟨tq, htq⟩ := collectV2_events topics _ (by rw [hc]; exact h)
              cases htq
            · have hk := kidsInvV2 (fun tq a => goV2 env n tq (d-1) (max 1 (b-1)) a)
                (fun q2 d2 b2 => 1 ≤ d2 ∧ d2 ≤ d - 1 ∧
                  b2 = max 1 (max 1 (b-1) - ((d-1) - d2)))
                (fun tq a q2 d2 b2 hmm =>
                  ih env tq (d-1) (max 1 (b-1)) a (by omega) (le_max_left 1 _) q2 d2 b2 hmm)
                _ _ (fun q2 d2 b2 hmm => absurd hmm (by simp)) q' d' b' h
              obtain ⟨hk1, hk2, hk3⟩ := hk
              refine ⟨hk1, by omega, ?_⟩
              rw [hk3, maxCollapse (b-1) ((d-1) - d') (by omega)]
              congr 1
              ring
      · rw [if_neg hg] at hmem
        dsimp only at hmem
        simp only [List.append_nil, List.mem_append, List.mem_cons,
          List.mem_singleton, List.not_mem_nil, or_false] at hmem
        rcases hmem with (h | h) | h
        · exact hroot h
        · simp at h
        · exact absurd h hprocne

/-- C1: for `breadth >= 1`, every invocation in the call tree of
`research_topic` — observable as its `research_start` emission carrying
the received `(query, depth, breadth)` — satisfies
`1 <= depth' <= depth` and `breadth' = max 1 (breadth - (depth - depth'))`,
for both copies.  Because depth decreases by exactly 1 per level, `depth -
depth'` is the nesting level of the invocation, so this says precisely
that each recursive child call receives `depth - 1` and
`max 1 (breadth - 1)` from its parent (the solved recurrence), that
breadth never reaches 0 (`breadth' = max 1 _ >= 1`), and that no
invocation runs below depth 1, i.e. the call tree is never deeper than the
initial depth. -/
theorem c1_recursion_budget :
    ∀ (env : Env) (q : Json) (d b : Int) (acc? : Option ResearchResult), 1 ≤ b →
    (∀ q' d' b', Event.research_start q' d' b' ∈ (research_topicV1 env q d b acc?).trace →
       1 ≤ d' ∧ d' ≤ d ∧ b' = max 1 (b - (d - d')) ∧ 1 ≤ b') ∧
    (∀ q' d' b', Event.research_start q' d' b' ∈ (research_topicV2 env q d b acc?).2 →
       1 ≤ d' ∧ d' ≤ d ∧ b' = max 1 (b - (d - d')) ∧ 1 ≤ b') := by
  intro env q d b acc? hb
  constructor
  · intro q' d' b' hmem
    obtain ⟨h1, h2, h3⟩ := traceInvV1 d.toNat env q d b (acc?.getD ⟨[], []⟩) rfl hb q' d' b' hmem
    exact ⟨h1, h2, h3, h3 ▸ le_max_left 1 _⟩
  · intro q' d' b' hmem
    obtain ⟨h1, h2, h3⟩ := traceInvV2 d.toNat env q d b (acc?.getD ⟨[], []⟩) rfl hb q' d' b' hmem
    exact ⟨h1, h2, h3, h3 ▸ le_max_left 1 _⟩

theorem c1_witness :
    1 ≤ (2 : Int) ∧ (2 : Int) ≤ 2 ∧ (2 : Int) = max 1 (2 - (2 - 2)) ∧ 1 ≤ (2 : Int) :=
  (c1_recursion_budget envEmpty (.str "r") 2 2 none (by decide)).1
    (.str "r") 2 2 (List.Mem.head _)

theorem c9_witness :
    "W1" ∈ (research_topicV1 envC9 (.str "q") 1 2 (some ⟨[], []⟩)).res.learnings ∧
    "u1" ∈ (research_topicV1 envC9 (.str "q") 1 2 (some ⟨[], []⟩)).res.visited_urls ∧
    "u3" ∈ (research_topicV1 envC9 (.str "q") 1 2 (some ⟨[], []⟩)).res.visited_urls ∧
    (research_topicV1 envC9 (.str "q") 1 2 (some ⟨[], []⟩)).raised = false ∧
    "W1" ∈ (research_topicV2 envC9 (.str "q") 1 2 (some ⟨[], []⟩)).1.learnings ∧
    "u3" ∈ (research_topicV2 envC9 (.str "q") 1 2 (some ⟨[], []⟩)).1.visited_urls := by
  have h := c9_partial_failure envC9 (.str "q") 2 ⟨[], []⟩ r1C9 r2C9 r3C9
    "* W1" "* W1" "* W1" "* W1" rfl (by decide) (by decide) (by decide)
    rfl rfl rfl rfl rfl rfl
  exact ⟨h.1.2.1 "W1" (by decide), h.1.2.2.2.1, h.1.2.2.2.2, h.1.1,
    h.2.1 "W1" (by decide), h.2.2.2.2⟩
